import Mathlib

/-! Verification of `fetch_godot_classes.py`, the script that maintains a local
mirror of the Godot repository and, for each tracked version, writes a sorted
catalog of the class names appearing in the `doc/classes` subdirectory.

The script is embedded shallowly: the Python string operations it uses
(`startswith`, `endswith`, the slice `[:-4]`, `list.sort` under Python's
code-point-lexicographic string order) are defined explicitly over the
underlying character lists, directory listings are lists of named entries, the
external `git` invocations are modelled by the exact argument vectors the
script passes to `subprocess.call`, and the filesystem write is a map update. -/

namespace FetchGodotClasses

/-! ## Constants of the script -/

def GODOT_REPOSITORY_URL : String := "https://github.com/godotengine/godot"

def GODOT_REPOSITORY_PATH : String := "godot"

def CLASSES_PATH : String := "doc/classes"

def VERSIONS : List String := ["3.2", "3.3", "3.4", "3.5"]

/-! ## Python string primitives used by the script -/

/-- Python `s.startswith(pre)`: the first `len(pre)` characters of `s` are
exactly `pre`. -/
def startswith (s pre : String) : Bool :=
  s.data.take pre.data.length == pre.data

/-- Python `s.endswith(suf)`: the last `len(suf)` characters of `s` are
exactly `suf`. -/
def endswith (s suf : String) : Bool :=
  s.data.drop (s.data.length - suf.data.length) == suf.data

/-- Python `s[:-4]`: `s` without its last four characters (the empty string
when `s` has four or fewer characters; no minimum-length check). -/
def dropLast4 (s : String) : String :=
  ⟨s.data.take (s.data.length - 4)⟩

/-- Python string comparison: lexicographic on code points. `lexLe a b` is
`a <= b` on the character lists. -/
def lexLe : List Char → List Char → Bool
  | [], _ => true
  | _ :: _, [] => false
  | a :: as, b :: bs =>
    if a.toNat < b.toNat then true
    else if b.toNat < a.toNat then false
    else lexLe as bs

/-- The order `list.sort()` sorts by: Python's `<=` on strings. -/
def pythonStrLe (a b : String) : Prop := lexLe a.data b.data = true

instance : DecidableRel pythonStrLe := fun a b => by
  unfold pythonStrLe; infer_instance

/-! ## Directory enumeration and filtering -/

/-- One immediate entry of a directory, as yielded by
`Path(CLASSES_PATH).glob("*")`: a name together with whether the entry is a
directory. `pathlib` pattern matching neither skips dot-files nor
distinguishes regular files from directories, so the glob yields every
immediate entry. -/
structure DirEntry where
  name : String
  isDir : Bool
deriving DecidableEq, Repr

/-- The filter applied to each globbed name:
`(not file_name.startswith("@")) and file_name.endswith(".xml")`. -/
def keepsClassFile (file_name : String) : Bool :=
  (!(startswith file_name "@")) && endswith file_name ".xml"

/-- The enumeration loop and the following `classes_names.sort()`: collect
`file.name[:-4]` for every globbed entry whose name passes the filter, then
sort ascending under Python's string order (modelled by a stable insertion
sort, which agrees with Python's stable ascending sort). -/
def classes_names (listing : List DirEntry) : List String :=
  List.insertionSort pythonStrLe
    ((listing.filter fun file => keepsClassFile file.name).map fun file =>
      dropLast4 file.name)

/-! ## Catalog rendering and writing -/

/-- The provenance comment (first line of `file_content`, before its
newline). -/
def headerLine (version : String) : String :=
  "// This file was automatically generated from the file names at " ++
    GODOT_REPOSITORY_URL ++ "/tree/" ++ version ++ "/doc/classes"

/-- The `file_content` accumulation: the comment line, `"[\n"`, then
`f"    \"{class_name}\",\n"` for each collected name in order, then `"]"`. -/
def file_content (version : String) (names : List String) : String :=
  names.foldl (fun acc class_name => acc ++ "    \"" ++ class_name ++ "\",\n")
    (headerLine version ++ "\n" ++ "[\n") ++ "]"

/-- `godot_classes_file = f"godot_classes-{version}.txt"`: the output path,
derived from the version identifier alone. -/
def godot_classes_file (version : String) : String :=
  "godot_classes-" ++ version ++ ".txt"

/-- `file_path.write_text(file_content)` over a filesystem modelled as a map
from paths to contents: the file at `path` is replaced unconditionally. -/
def write_text (fs : String → Option String) (path content : String) :
    String → Option String :=
  fun p => if p = path then some content else fs p

/-! ## External command invocations -/

/-- The `git remote add` argument vector: built by appending `-t version` for
each tracked version, then `origin` and the repository URL. -/
def git_remote_add_args : List String :=
  (VERSIONS.foldl (fun args version => args ++ ["-t", version])
    ["git", "remote", "add"]) ++ ["origin", GODOT_REPOSITORY_URL]

/-- The commands issued inside the `if not Path(GODOT_REPOSITORY_PATH).exists()`
block: `git init`, the remote configuration, and a depth-1 fetch. -/
def initCommands : List (List String) :=
  [["git", "init"], git_remote_add_args, ["git", "fetch", "--depth", "1"]]

/-- The full sequence of external commands of one run: the initialization
block only when the mirror directory is absent, then one checkout per
version. -/
def scriptCommands (mirrorExists : Bool) : List (List String) :=
  (if mirrorExists then [] else initCommands) ++
    VERSIONS.map fun version => ["git", "checkout", version]

/-- Does `needle` occur at the start of `hay`? -/
def occursAtStart : List Char → List Char → Bool
  | [], _ => true
  | _ :: _, [] => false
  | a :: as, b :: bs => a == b && occursAtStart as bs

/-- Does `needle` occur as a contiguous substring of `hay`? -/
def containsSub (hay needle : List Char) : Bool :=
  occursAtStart needle hay ||
    match hay with
    | [] => false
    | _ :: rest => containsSub rest needle

/-- Whether a command line configures sparse-path selection: it names the
target subdirectory, or any of git's sparse-checkout mechanisms. -/
def isSparsePathConfiguration (cmd : List String) : Bool :=
  cmd.any fun arg =>
    arg == CLASSES_PATH || arg == "sparse-checkout" ||
      arg == "core.sparseCheckout" || arg == "--sparse" ||
      containsSub arg.data "sparse".data

/-! ## Whole-run models -/

/-- The per-version processing loop, as a function of the filesystem state:
`checkoutListing version` is the listing of `doc/classes` present after
`git checkout version`. Each version yields its output path and rendered
content. -/
def runExtractor (checkoutListing : String → List DirEntry) :
    List (String × String) :=
  VERSIONS.map fun version =>
    (godot_classes_file version,
      file_content version (classes_names (checkoutListing version)))

/-- `subprocess.call(args)`: runs the command, returning its exit status. -/
def subprocess_call (exec : List String → Int) (args : List String) : Int :=
  exec args

/-- The whole script, with the external commands' exit statuses given by the
oracle `exec`. Mirroring the code, every status is produced and then
discarded: no branch of the script examines it. -/
def runScript (mirrorExists : Bool) (exec : List String → Int)
    (checkoutListing : String → List DirEntry) : List (String × String) :=
  let _initStatuses : List Int :=
    if mirrorExists then [] else initCommands.map (subprocess_call exec)
  VERSIONS.map fun version =>
    let _checkoutStatus : Int := subprocess_call exec ["git", "checkout", version]
    (godot_classes_file version,
      file_content version (classes_names (checkoutListing version)))

/-! ## Spec-side description of the catalog text -/

/-- One rendered entry line, without its newline: the quoted entry name
followed by a comma. -/
def entryLine (class_name : String) : String :=
  "    \"" ++ class_name ++ "\","

/-- The catalog text as the specification describes it, line by line: the
provenance comment, an opening bracket, one comma-terminated quoted entry per
name, and a closing bracket on its own line. -/
def catalogLines (version : String) (names : List String) : List String :=
  headerLine version :: "[" :: (names.map entryLine ++ ["]"])

/-- Join lines with single newline separators and no trailing newline. -/
def joinLines : List String → String
  | [] => ""
  | [line] => line
  | line :: rest => line ++ "\n" ++ joinLines rest

/-- The concatenation of the rendered entry lines, each with its trailing
newline, in order. -/
def entriesBlock : List String → String
  | [] => ""
  | class_name :: rest => "    \"" ++ class_name ++ "\",\n" ++ entriesBlock rest

/-! ## Helper lemmas about the Python string order -/

lemma lexLe_cons_iff (x y : Char) (xs ys : List Char) :
    lexLe (x :: xs) (y :: ys) = true ↔
      x.toNat < y.toNat ∨ (x.toNat = y.toNat ∧ lexLe xs ys = true) := by
  rcases Nat.lt_trichotomy x.toNat y.toNat with h | h | h
  · simp only [lexLe, if_pos h]
    exact ⟨fun _ => Or.inl h, fun _ => by trivial⟩
  · simp only [lexLe, if_neg (by omega : ¬ x.toNat < y.toNat),
      if_neg (by omega : ¬ y.toNat < x.toNat)]
    constructor
    · intro hle; exact Or.inr ⟨h, hle⟩
    · rintro (h' | ⟨_, hle⟩)
      · omega
      · exact hle
  · simp only [lexLe, if_neg (by omega : ¬ x.toNat < y.toNat), if_pos h]
    constructor
    · intro hf; exact absurd hf (by simp)
    · rintro (h' | ⟨h', _⟩) <;> omega

lemma lexLe_total (a : List Char) : ∀ b, lexLe a b = true ∨ lexLe b a = true := by
  induction a with
  | nil => intro b; exact Or.inl rfl
  | cons x xs ih =>
    intro b
    cases b with
    | nil => exact Or.inr rfl
    | cons y ys =>
      rcases Nat.lt_trichotomy x.toNat y.toNat with h | h | h
      · exact Or.inl ((lexLe_cons_iff x y xs ys).2 (Or.inl h))
      · rcases ih ys with hle | hle
        · exact Or.inl ((lexLe_cons_iff x y xs ys).2 (Or.inr ⟨h, hle⟩))
        · exact Or.inr ((lexLe_cons_iff y x ys xs).2 (Or.inr ⟨h.symm, hle⟩))
      · exact Or.inr ((lexLe_cons_iff y x ys xs).2 (Or.inl h))

lemma lexLe_trans (a : List Char) :
    ∀ b c, lexLe a b = true → lexLe b c = true → lexLe a c = true := by
  induction a with
  | nil => intro b c _ _; rfl
  | cons x xs ih =>
    intro b c h1 h2
    cases b with
    | nil => exact absurd h1 (by simp [lexLe])
    | cons y ys =>
      cases c with
      | nil => exact absurd h2 (by simp [lexLe])
      | cons z zs =>
        rw [lexLe_cons_iff] at h1 h2 ⊢
        rcases h1 with h1 | ⟨h1, h1'⟩ <;> rcases h2 with h2 | ⟨h2, h2'⟩
        · exact Or.inl (by omega)
        · exact Or.inl (by omega)
        · exact Or.inl (by omega)
        · exact Or.inr ⟨by omega, ih ys zs h1' h2'⟩

instance : IsTotal String pythonStrLe :=
  ⟨fun a b => lexLe_total a.data b.data⟩

instance : IsTrans String pythonStrLe :=
  ⟨fun a b c => lexLe_trans a.data b.data c.data⟩

/-! ## Helper lemmas about filtering and stripping -/

lemma endswith_xml_decomp (s : String) (h : endswith s ".xml" = true) :
    s.data = (dropLast4 s).data ++ ".xml".data := by
  unfold endswith at h
  rw [beq_iff_eq] at h
  have h4 : ".xml".data.length = 4 := rfl
  rw [h4] at h
  conv_lhs => rw [← List.take_append_drop (s.data.length - 4) s.data]
  rw [h]
  rfl

lemma dropLast4_inj_on_xml {a b : String} (ha : endswith a ".xml" = true)
    (hb : endswith b ".xml" = true) (h : dropLast4 a = dropLast4 b) : a = b := by
  apply String.ext
  rw [endswith_xml_decomp a ha, endswith_xml_decomp b hb, h]

lemma mem_classes_names {listing : List DirEntry} {entryName : String} :
    entryName ∈ classes_names listing ↔
      ∃ file ∈ listing, keepsClassFile file.name = true ∧
        entryName = dropLast4 file.name := by
  unfold classes_names
  rw [(List.perm_insertionSort pythonStrLe _).mem_iff]
  simp only [List.mem_map, List.mem_filter]
  constructor
  · rintro ⟨file, ⟨hmem, hkeep⟩, heq⟩
    exact ⟨file, hmem, hkeep, heq.symm⟩
  · rintro ⟨file, hmem, hkeep, heq⟩
    exact ⟨file, ⟨hmem, hkeep⟩, heq.symm⟩

/-! ## Helper lemmas about rendering -/

lemma foldl_entries (names : List String) (init : String) :
    names.foldl (fun acc class_name => acc ++ "    \"" ++ class_name ++ "\",\n")
      init = init ++ entriesBlock names := by
  induction names generalizing init with
  | nil => simp [entriesBlock, String.append_empty]
  | cons n rest ih =>
    rw [List.foldl_cons, ih]
    simp only [entriesBlock, String.append_assoc]

lemma joinLines_cons_of_ne_nil (a : String) (l : List String) (h : l ≠ []) :
    joinLines (a :: l) = a ++ "\n" ++ joinLines l := by
  cases l with
  | nil => exact absurd rfl h
  | cons b m => rfl

lemma joinLines_entries (names : List String) :
    joinLines (names.map entryLine ++ ["]"]) = entriesBlock names ++ "]" := by
  induction names with
  | nil => rfl
  | cons n rest ih =>
    rw [List.map_cons, List.cons_append,
      joinLines_cons_of_ne_nil _ _ (by simp), ih]
    simp only [entriesBlock, entryLine, String.append_assoc]
    rfl

/-! ## Claims -/

/-- C1: a filename in the target subdirectory contributes an entry to the
catalog output if and only if it does not start with `"@"` and does end with
`".xml"`, and the contributed entry name is the filename with that
4-character suffix removed. -/
theorem claim_C1_filter_iff (listing : List DirEntry) (entryName : String) :
    entryName ∈ classes_names listing ↔
      ∃ file ∈ listing,
        (startswith file.name "@" = false ∧ endswith file.name ".xml" = true) ∧
          entryName = dropLast4 file.name := by
  rw [mem_classes_names]
  constructor
  · rintro ⟨file, hmem, hkeep, heq⟩
    unfold keepsClassFile at hkeep
    rw [Bool.and_eq_true, Bool.not_eq_true'] at hkeep
    exact ⟨file, hmem, ⟨hkeep.1, hkeep.2⟩, heq⟩
  · rintro ⟨file, hmem, ⟨h1, h2⟩, heq⟩
    refine ⟨file, hmem, ?_, heq⟩
    unfold keepsClassFile
    rw [Bool.and_eq_true, Bool.not_eq_true']
    exact ⟨h1, h2⟩

/-- C2: when the directory listing has pairwise distinct names (as any real
directory does), the catalog's entry sequence is sorted non-decreasingly under
Python's lexicographic string order, contains no entry twice, and is exactly
(a permutation of) the filtered, suffix-stripped filenames of the listing. -/
theorem claim_C2_sorted_nodup_exact (listing : List DirEntry)
    (h : (listing.map DirEntry.name).Nodup) :
    (classes_names listing).Sorted pythonStrLe ∧
      (classes_names listing).Nodup ∧
      (classes_names listing).Perm
        ((listing.filter fun file => keepsClassFile file.name).map fun file =>
          dropLast4 file.name) := by
  unfold classes_names
  refine ⟨List.sorted_insertionSort pythonStrLe _, ?_,
    List.perm_insertionSort pythonStrLe _⟩
  rw [(List.perm_insertionSort pythonStrLe _).nodup_iff]
  have hnames :
      ((listing.filter fun file => keepsClassFile file.name).map
        DirEntry.name).Nodup :=
    List.Nodup.sublist ((List.filter_sublist listing).map DirEntry.name) h
  have hmapeq :
      ((listing.filter fun file => keepsClassFile file.name).map fun file =>
          dropLast4 file.name) =
        ((listing.filter fun file => keepsClassFile file.name).map
          DirEntry.name).map dropLast4 := by
    rw [List.map_map]
    rfl
  rw [hmapeq]
  refine hnames.map_on ?_
  intro x hx y hy hxy
  obtain ⟨ex, hex, hexn⟩ := List.mem_map.1 hx
  obtain ⟨ey, hey, heyn⟩ := List.mem_map.1 hy
  have hkx : keepsClassFile ex.name = true := (List.mem_filter.1 hex).2
  have hky : keepsClassFile ey.name = true := (List.mem_filter.1 hey).2
  unfold keepsClassFile at hkx hky
  rw [Bool.and_eq_true] at hkx hky
  have hxxml : endswith x ".xml" = true := hexn ▸ hkx.2
  have hyxml : endswith y ".xml" = true := heyn ▸ hky.2
  exact dropLast4_inj_on_xml hxxml hyxml hxy

/-- C2 witness: instantiation at the spec's example listing. -/
theorem claim_C2_witness :
    (([DirEntry.mk "Node.xml" false, DirEntry.mk "@GlobalScope.xml" false,
        DirEntry.mk "Node2D.xml" false, DirEntry.mk "readme.md" false].map
      DirEntry.name).Nodup) ∧
      ((classes_names [DirEntry.mk "Node.xml" false,
          DirEntry.mk "@GlobalScope.xml" false, DirEntry.mk "Node2D.xml" false,
          DirEntry.mk "readme.md" false]).Sorted pythonStrLe ∧
        (classes_names [DirEntry.mk "Node.xml" false,
          DirEntry.mk "@GlobalScope.xml" false, DirEntry.mk "Node2D.xml" false,
          DirEntry.mk "readme.md" false]).Nodup ∧
        (classes_names [DirEntry.mk "Node.xml" false,
          DirEntry.mk "@GlobalScope.xml" false, DirEntry.mk "Node2D.xml" false,
          DirEntry.mk "readme.md" false]).Perm
          (([DirEntry.mk "Node.xml" false, DirEntry.mk "@GlobalScope.xml" false,
              DirEntry.mk "Node2D.xml" false,
              DirEntry.mk "readme.md" false].filter fun file =>
            keepsClassFile file.name).map fun file => dropLast4 file.name)) :=
  ⟨by decide, claim_C2_sorted_nodup_exact _ (by decide)⟩

/-- C3: the rendered catalog text is exactly the newline-join of: the
provenance comment line, a `[` line, one line per entry holding the quoted
entry name followed by a comma (including after the last entry), and a
closing `]` line; for the empty entry list the bracketed block is exactly
`[`-newline-`]`. -/
theorem claim_C3_render_lines (version : String) (names : List String) :
    file_content version names = joinLines (catalogLines version names) ∧
      file_content version [] = headerLine version ++ "\n" ++ "[\n" ++ "]" := by
  constructor
  · unfold file_content catalogLines
    rw [foldl_entries, joinLines_cons_of_ne_nil _ _ (by simp),
      joinLines_cons_of_ne_nil _ _ (by simp), joinLines_entries]
    simp only [String.append_assoc]
    rfl
  · unfold file_content
    rfl

/-- C4 counterexample: no command the script issues (mirror absent) performs
any sparse-path selection — none names the `doc/classes` subdirectory or any
sparse-checkout mechanism, refuting that fetches are restricted to the
requested subdirectory tree. -/
theorem claim_C4_counterexample :
    ((scriptCommands false).all fun cmd => ! isSparsePathConfiguration cmd) =
      true := by
  decide

/-- C4 (amended): when the mirror directory does not exist, the script
initializes it, configures the remote so that fetching is restricted to the
requested version branches only (a `-t` option per version — no subdirectory
or sparse-path restriction), performs a shallow depth-1 fetch, and then checks
out each version. -/
theorem claim_C4_init_trace :
    scriptCommands false =
        [["git", "init"],
         ["git", "remote", "add", "-t", "3.2", "-t", "3.3", "-t", "3.4",
           "-t", "3.5", "origin", "https://github.com/godotengine/godot"],
         ["git", "fetch", "--depth", "1"],
         ["git", "checkout", "3.2"], ["git", "checkout", "3.3"],
         ["git", "checkout", "3.4"], ["git", "checkout", "3.5"]] ∧
      (initCommands.all fun cmd => ! isSparsePathConfiguration cmd) = true :=
  ⟨rfl, by decide⟩

/-- C5 counterexample: when the mirror directory already exists, no issued
command is a fetch — refuting that "both checkout and fetch still proceed". -/
theorem claim_C5_counterexample :
    ((scriptCommands true).all fun cmd =>
      ! cmd.any fun arg => arg == "fetch") = true := by
  decide

/-- C5 (amended): when the mirror directory already exists at script start,
no clone/init, no remote configuration and no fetch is attempted; only the
per-version checkouts proceed. -/
theorem claim_C5_existing_mirror :
    scriptCommands true =
        [["git", "checkout", "3.2"], ["git", "checkout", "3.3"],
         ["git", "checkout", "3.4"], ["git", "checkout", "3.5"]] ∧
      ((scriptCommands true).all fun cmd =>
        ! cmd.any fun arg =>
          arg == "init" || arg == "remote" || arg == "clone") = true :=
  ⟨rfl, by decide⟩

/-- C6: the extractor's outputs are a function of the mirror's filesystem
state alone, so two runs against an unchanged mirror produce byte-identical
output files for every version. -/
theorem claim_C6_idempotent (listing₁ listing₂ : String → List DirEntry)
    (h : ∀ version, listing₁ version = listing₂ version) :
    runExtractor listing₁ = runExtractor listing₂ := by
  have heq : listing₁ = listing₂ := funext h
  rw [heq]

/-- C6 witness: instantiation at a concrete unchanged mirror state. -/
theorem claim_C6_witness :
    runExtractor (fun _ => [DirEntry.mk "Node.xml" false]) =
      runExtractor (id ∘ fun _ => [DirEntry.mk "Node.xml" false]) :=
  claim_C6_idempotent _ _ (fun _ => rfl)

/-- C7: the exit statuses of the external version-control commands are
returned by `subprocess_call` and discarded: for any two status oracles the
script behaves identically, and its outputs are exactly those of enumerating
and rendering whatever filesystem state currently exists. -/
theorem claim_C7_status_ignored (mirrorExists : Bool)
    (exec₁ exec₂ : List String → Int)
    (checkoutListing : String → List DirEntry) :
    runScript mirrorExists exec₁ checkoutListing =
        runScript mirrorExists exec₂ checkoutListing ∧
      runScript mirrorExists exec₁ checkoutListing =
        runExtractor checkoutListing :=
  ⟨rfl, rfl⟩

/-- C8: the catalog path is derived deterministically (and injectively) from
the version identifier, any existing file at that path is overwritten
unconditionally, and each version's output file holds exactly that version's
enumerated entries. -/
theorem claim_C8_output_paths :
    (∀ version₁ version₂ : String, version₁ ≠ version₂ →
        godot_classes_file version₁ ≠ godot_classes_file version₂) ∧
      (∀ (fs : String → Option String) (path content : String),
        write_text fs path content path = some content) ∧
      ∀ checkoutListing : String → List DirEntry,
        runExtractor checkoutListing = VERSIONS.map fun version =>
          (godot_classes_file version,
            file_content version (classes_names (checkoutListing version))) := by
  refine ⟨?_, ?_, fun _ => rfl⟩
  · intro v₁ v₂ hne heq
    apply hne
    have h := congrArg String.data heq
    simp only [godot_classes_file, String.data_append, List.append_assoc] at h
    exact String.ext (List.append_cancel_right (List.append_cancel_left h))
  · intro fs path content
    simp [write_text]

/-- C8 witness: two distinct versions of one run get distinct output paths. -/
theorem claim_C8_witness :
    godot_classes_file "3.2" ≠ godot_classes_file "3.3" :=
  claim_C8_output_paths.1 "3.2" "3.3" (by decide)

/-- C9: an entry named exactly `".xml"` passes the filter — no minimum-length
check precedes the 4-character strip — and yields the empty entry name,
rendered as a quoted empty string line in the catalog. -/
theorem claim_C9_bare_suffix :
    keepsClassFile ".xml" = true ∧
      classes_names [DirEntry.mk ".xml" false] = [""] ∧
      file_content "3.5" (classes_names [DirEntry.mk ".xml" false]) =
        headerLine "3.5" ++ "\n" ++ "[\n" ++ "    \"\",\n" ++ "]" := by
  refine ⟨by decide, by decide, ?_⟩
  decide

/-- C10: enumeration does not distinguish regular files from other entries:
any immediate entry of the subdirectory — directory or not — whose name does
not start with `"@"` and ends with `".xml"` is included in the catalog. -/
theorem claim_C10_entry_kind (listing : List DirEntry) (entry : DirEntry)
    (hmem : entry ∈ listing) (hat : startswith entry.name "@" = false)
    (hxml : endswith entry.name ".xml" = true) :
    dropLast4 entry.name ∈ classes_names listing := by
  rw [mem_classes_names]
  refine ⟨entry, hmem, ?_, rfl⟩
  unfold keepsClassFile
  rw [Bool.and_eq_true, Bool.not_eq_true']
  exact ⟨hat, hxml⟩

/-- C10 witness: a directory named `Theme.xml` is catalogued like a file. -/
theorem claim_C10_witness :
    DirEntry.mk "Theme.xml" true ∈ [DirEntry.mk "Theme.xml" true] ∧
      dropLast4 (DirEntry.mk "Theme.xml" true).name ∈
        classes_names [DirEntry.mk "Theme.xml" true] :=
  ⟨by decide, claim_C10_entry_kind _ _ (by decide) (by decide) (by decide)⟩

end FetchGodotClasses
